import Mathlib

/-!
# Verification of the LiquidAudioBook ingestion-and-assembly pipeline

Shallow embedding of the core pipeline of the repository:

* `page_file_handler.py` — `PageFileHandler.on_created`, `PageFileHandler.process_page`,
  and the CSV append (`append_to_csv`), modelled as pure state transitions on a
  `WatchState` (the in-memory `processed_files` set plus the durable CSV table).
* `main.py` — `process_existing_files`, the batch directory scan.
* `page_processor.py` — the page-number resolution inside `PageProcessor.text2json`
  (filename-digit parsing via `re.search(r'\d+', Path(image_path).stem)`).
* `text_to_speech.py` — `TTSProcessor.text_to_speech_batch` (the synthesis driver over
  the CSV) and `TTSProcessor.combine_audiobook` (selection, sorting, per-file load,
  silence insertion and concatenation).

External collaborators (the ollama extraction call, the `llama-lfm2-audio` binary,
`soundfile` loading and the `torchaudio` resampler) are modelled as function
parameters, matching the spec's treatment of them as external interfaces.
Page text is modelled as `List Char`; the CSV's `NaN`/empty cells as `Option`.
The `processed_at` timestamp column is carried by the real table but is consulted
by no code path under verification, so it is not part of the embedded `Row`.
-/

/-! ## Characters, whitespace and words

`str.strip()` and `str.split()` from Python, as used by the synthesis driver's
empty-text test and by the data model's word count. -/

def isSpace (c : Char) : Bool := c.isWhitespace

/-- Python `str.strip()` on a character list: drop whitespace at both ends. -/
def stripChars (l : List Char) : List Char :=
  ((l.dropWhile isSpace).reverse.dropWhile isSpace).reverse

/-- Accumulator worker for `words`: `cur` is the reversed current token. -/
def wordsAux : List Char → List Char → List (List Char)
  | cur, [] => if cur.isEmpty then [] else [cur.reverse]
  | cur, c :: cs =>
    if isSpace c then
      if cur.isEmpty then wordsAux [] cs else cur.reverse :: wordsAux [] cs
    else
      wordsAux (c :: cur) cs

/-- Python `str.split()` with no argument: whitespace-delimited tokens, no empties. -/
def words (l : List Char) : List (List Char) := wordsAux [] l

/-- The data model's `wordCount`: number of whitespace-delimited tokens of the
text, 0 for a missing (`NaN`) text cell. -/
def countWords (t : Option (List Char)) : Nat :=
  match t with
  | none => 0
  | some l => (words l).length

/-! ## Path manipulation

Faithful renderings of `pathlib.PurePath.name`, `.stem` and `.suffix` as used by
`page_processor.text2json` and `page_file_handler.on_created`. -/

/-- `Path(p).name`: the component after the last `/`. -/
def pathFinalName (p : List Char) : List Char :=
  (p.reverse.takeWhile (fun c => c ≠ '/')).reverse

/-- `name.rfind('.')`: index of the last dot, `-1` when there is none. -/
def rfindDot (n : List Char) : Int :=
  match n.reverse.findIdx? (fun c => c = '.') with
  | some k => (n.length : Int) - 1 - (k : Int)
  | none => -1

/-- `Path(p).stem`: cpython does `i = name.rfind('.')` and returns `name[:i]`
when `0 < i < len(name) - 1`, else the whole name. -/
def pathStem (p : String) : List Char :=
  let n := pathFinalName p.toList
  let i := rfindDot n
  if 0 < i ∧ i < (n.length : Int) - 1 then n.take i.toNat else n

/-- `Path(p).suffix`: the `name[i:]` part under the same condition, else empty. -/
def pathSuffix (p : String) : List Char :=
  let n := pathFinalName p.toList
  let i := rfindDot n
  if 0 < i ∧ i < (n.length : Int) - 1 then n.drop i.toNat else []

/-- `.lower()` on the suffix (ASCII file extensions). -/
def lowerChars (l : List Char) : List Char := l.map Char.toLower

/-! ## Filename digit parsing (`page_processor.text2json`) -/

/-- `re.search(r'\d+', filename)`: the first maximal run of digits, if any. -/
def firstDigitRun : List Char → Option (List Char)
  | [] => none
  | c :: cs =>
    if c.isDigit then some (c :: cs.takeWhile Char.isDigit)
    else firstDigitRun cs

def digitVal (c : Char) : Nat := c.toNat - 48

/-- `int()` of a run of decimal digits. -/
def digitsVal (l : List Char) : Nat := l.foldl (fun a c => a * 10 + digitVal c) 0

/-! ## Data model -/

/-- The structured record returned by the extraction collaborator
(`PageData` in `page_processor.py`). -/
structure PageData where
  page_number : Int
  text : List Char
  word_count : Int
deriving Repr, DecidableEq

/-- One row of the durable CSV table (`pages.csv`). `text` and `audio_path` are
`Option` because pandas reads an empty cell back as `NaN`. The `processed_at`
column is not consulted by any verified code path and is omitted. -/
structure Row where
  page_number : Int
  text : Option (List Char)
  word_count : Int
  file_path : String
  audio_path : Option String
deriving Repr, DecidableEq

/-! ## Page-number resolution (`page_processor.text2json`, lines 82-109) -/

/-- `page_number = int(m.group()) if m else 0` over the filename stem. -/
def filenamePageNumber (image_path : String) : Int :=
  match firstDigitRun (pathStem image_path) with
  | some ds => (digitsVal ds : Int)
  | none => 0

/-- The page-number update `text2json` performs on the collaborator's record:
`if page_number > 0: page_data.page_number = page_number`. -/
def text2json (image_path : String) (pd : PageData) : PageData :=
  let page_number := filenamePageNumber image_path
  if page_number > 0 then { pd with page_number := page_number } else pd

/-- Modelled from the spec's wording of the resolution policy: "parse the first
run of digits in the filename stem; if found and positive, it overrides whatever
page number the extraction collaborator returned; otherwise use the
collaborator's value". Used only to compare against the source's `text2json`. -/
def specResolvedPageNumber (image_path : String) (collabPage : Int) : Int :=
  match firstDigitRun (pathStem image_path) with
  | some ds => if (digitsVal ds : Int) > 0 then (digitsVal ds : Int) else collabPage
  | none => collabPage

/-! ## Ingestion (`page_file_handler.py`, `main.py`) -/

/-- A watchdog filesystem event as seen by `PageFileHandler.on_created`. -/
structure FileEvent where
  is_directory : Bool
  src_path : String
deriving Repr, DecidableEq

/-- `self.image_extensions` from `PageFileHandler.__init__`. -/
def imageExtensions : List (List Char) :=
  [".jpg".toList, ".jpeg".toList, ".png".toList, ".gif".toList,
   ".bmp".toList, ".tiff".toList, ".webp".toList]

/-- Handler state: the in-memory `processed_files` set and the durable CSV
table the handler appends to. -/
structure WatchState where
  processed : List String
  table : List Row
deriving Repr, DecidableEq

/-- `set.add`: insert if absent. -/
def addPath (p : String) (s : List String) : List String :=
  if p ∈ s then s else p :: s

/-- The row `process_page` builds and `append_to_csv` writes: collaborator data
plus `file_path`; `audio_path` is written as the empty string, which pandas
reads back as `NaN` (here: `none`). -/
def mkRow (pd : PageData) (p : String) : Row :=
  { page_number := pd.page_number, text := some pd.text,
    word_count := pd.word_count, file_path := p, audio_path := none }

/-- `PageFileHandler.process_page`: the path is added to `processed_files`
first; then the extractor runs, and only on success is a row appended to the
CSV (a `None` extraction result raises inside the `try` and is swallowed by the
`except`, leaving the table untouched). -/
def process_page (ext : String → Option PageData) (s : WatchState)
    (p : String) : WatchState :=
  let s1 : WatchState := { s with processed := addPath p s.processed }
  match ext p with
  | some pd => { s1 with table := s1.table ++ [mkRow pd p] }
  | none => s1

/-- `PageFileHandler.on_created`: ignore directories; process a file only when
its lowercased suffix is a recognized image extension and the path is not yet
in `processed_files`. -/
def on_created (ext : String → Option PageData) (s : WatchState)
    (e : FileEvent) : WatchState :=
  if e.is_directory then s
  else
    if lowerChars (pathSuffix e.src_path) ∈ imageExtensions ∧
        e.src_path ∉ s.processed then
      process_page ext s e.src_path
    else s

/-- `main.process_existing_files`: iterate the files found under the directory
(the `rglob` result restricted to regular files) and call `process_page`
directly for every one with a recognized image extension — note that there is
no `processed_files` check on this path. -/
def process_existing_files (ext : String → Option PageData)
    (files : List String) (s : WatchState) : WatchState :=
  files.foldl
    (fun st p =>
      if lowerChars (pathSuffix p) ∈ imageExtensions then process_page ext st p
      else st)
    s

/-! ## Synthesis driver (`text_to_speech.TTSProcessor.text_to_speech_batch`) -/

/-- Python `format(i, '03d')` for a natural number. -/
def natPad3 (n : Nat) : String :=
  if n < 10 then "00" ++ toString n
  else if n < 100 then "0" ++ toString n
  else toString n

/-- Python `format(i, '03d')` (total width 3, sign included). -/
def fmt03 (i : Int) : String :=
  if i < 0 then
    let m := (-i).toNat
    if m < 10 then "-0" ++ toString m else "-" ++ toString m
  else natPad3 i.toNat

/-- The audio file name the driver writes: `output_dir / f"page_{page_num:03d}.wav"`. -/
def audioPathFor (output_dir : String) (page_num : Int) : String :=
  output_dir ++ "/page_" ++ fmt03 page_num ++ ".wav"

/-- The driver's non-skip test: `not (pd.isna(text) or not text.strip())`. -/
def hasText (r : Row) : Bool :=
  match r.text with
  | none => false
  | some t => !(stripChars t).isEmpty

/-- The attempted/succeeded/failed triple the spec says a batch run reports.
Modelled from the spec: `text_to_speech_batch` in the source is annotated
`-> None` and returns nothing, so the embedded driver's summary component is
compared against this record. -/
structure BatchSummary where
  attempted : Nat
  succeeded : Nat
  failed : Nat
deriving Repr, DecidableEq

/-- Observable outcome of one driver run: the updated CSV table, the list of
`generate_audio` invocations `(row position, text, output path)` submitted to
the synthesis collaborator, and the value returned to the caller. -/
structure BatchResult where
  table : List Row
  calls : List (Nat × List Char × String)
  summary : Option BatchSummary
deriving Repr, DecidableEq

/-- The `for idx, row in df.iterrows()` loop body of `text_to_speech_batch`:
skip rows with missing/blank text; otherwise build the deterministic output
path, invoke the collaborator (`gen` models `generate_audio`, whose empty
return string means failure), and on success set `df.at[idx, "audio_path"]`.
A collaborator failure leaves the row unchanged and the loop continues. -/
def batchGo (gen : List Char → String → Bool) (output_dir : String) :
    List (Nat × Row) → List Row × List (Nat × List Char × String)
  | [] => ([], [])
  | (idx, row) :: rest =>
    match row.text with
    | none =>
      let r := batchGo gen output_dir rest
      (row :: r.1, r.2)
    | some t =>
      if (stripChars t).isEmpty then
        let r := batchGo gen output_dir rest
        (row :: r.1, r.2)
      else
        let audio_path := audioPathFor output_dir row.page_number
        let row' :=
          if gen t audio_path then { row with audio_path := some audio_path }
          else row
        let r := batchGo gen output_dir rest
        (row' :: r.1, (idx, t, audio_path) :: r.2)

/-- `TTSProcessor.text_to_speech_batch`: read the CSV, run the loop over
`df.iterrows()` (positional labels, since `read_csv` yields a `RangeIndex`),
write the updated CSV back. The Python function is annotated `-> None`: it
hands no summary back to the caller, hence `summary := none`. -/
def text_to_speech_batch (gen : List Char → String → Bool) (output_dir : String)
    (rows : List Row) : BatchResult :=
  let r := batchGo gen output_dir rows.enum
  { table := r.1, calls := r.2, summary := none }

/-! ## Audiobook assembly (`text_to_speech.TTSProcessor.combine_audiobook`) -/

/-- What `soundfile.read` yields for an existing file: channel count, sample
count per channel, and the file's sample rate. -/
structure Clip where
  channels : Nat
  samples : Nat
  sr : Nat
deriving Repr, DecidableEq

/-- One element of the `waveforms` list the combiner concatenates: either a
loaded (and, when needed, resampled) page clip, or a `torch.zeros` silence
buffer (all samples zero-amplitude by construction). -/
inductive Seg where
  | clip (page : Int) (src : String) (channels samples : Nat)
  | silence (channels samples : Nat)
deriving Repr, DecidableEq

def Seg.channels : Seg → Nat
  | .clip _ _ ch _ => ch
  | .silence ch _ => ch

/-- Failure modes of a combine run: the `ValueError("No audio files found in
CSV")` raised on an empty selection, the `RuntimeError` `torch.cat` raises on
an empty tensor list, and the shape error `torch.cat(dim=1)` raises when the
channel counts disagree. -/
inductive CombineError where
  | noAudio
  | emptyCat
  | channelMismatch
deriving Repr, DecidableEq

/-- `sample_rate = 24_000  # LFM2-Audio-1.5B outputs at 24kHz`. -/
def canonicalRate : Nat := 24000

/-- `silence_samples = int(silence_duration * sample_rate)`; Python `int()`
truncates toward zero, which for the nonnegative durations in scope is the
floor: with `d = num/den` in lowest terms, `⌊d · 24000⌋` is the floor division
`fdiv (num · 24000) den`. -/
def silenceSamples (d : ℚ) : Nat :=
  (Int.fdiv (d.num * (canonicalRate : Int)) (d.den : Int)).toNat

/-- `df[df["audio_path"].notna()]` over the CSV's positional `RangeIndex`:
the selected rows keep their original labels. -/
def selectAudioRows (rows : List Row) : List (Nat × Row) :=
  rows.enum.filter (fun ir => ir.2.audio_path.isSome)

/-- Insertion step of a stable sort on `page_number` (ascending). -/
def insertByPage (x : Nat × Row) : List (Nat × Row) → List (Nat × Row)
  | [] => [x]
  | y :: ys =>
    if x.2.page_number ≤ y.2.page_number then x :: y :: ys
    else y :: insertByPage x ys

/-- `.sort_values("page_number")`: ascending, and stable for equal keys (pandas
keeps the incoming order of tied rows at these sizes); row labels travel with
their rows. -/
def sortByPage : List (Nat × Row) → List (Nat × Row)
  | [] => []
  | x :: xs => insertByPage x (sortByPage xs)

/-- The `for idx, row in audio_rows.iterrows()` loop of `combine_audiobook`:
load each selected row's file (`fs` models the filesystem/`sf.read`; `none`
means `Path(...).exists()` is false, which is logged and skipped), resample
when the file's rate differs from the canonical one (`rs` models
`torchaudio.transforms.Resample`, which preserves the channel count), and
append a silence buffer whenever `idx < len(audio_rows) - 1` — `idx` being the
row's DataFrame label, `total` the selection's length. -/
def combineLoop (rs : Nat → Nat → Nat) (fs : String → Option Clip) (d : ℚ)
    (total : Nat) : List (Nat × Row) → List Seg × List String
  | [] => ([], [])
  | (idx, row) :: rest =>
    match row.audio_path with
    | none => combineLoop rs fs d total rest
    | some ap =>
      match fs ap with
      | none =>
        let r := combineLoop rs fs d total rest
        (r.1, ("Warning: Audio file not found: " ++ ap) :: r.2)
      | some c =>
        let ns := if c.sr ≠ canonicalRate then rs c.sr c.samples else c.samples
        let seg := Seg.clip row.page_number row.file_path c.channels ns
        let r := combineLoop rs fs d total rest
        if idx < total - 1 then
          (seg :: Seg.silence c.channels (silenceSamples d) :: r.1, r.2)
        else (seg :: r.1, r.2)

/-- `torch.cat(waveforms, dim=1)`: fails on an empty list, and on tensors whose
channel dimensions disagree; otherwise the ordered concatenation. -/
def catCheck : List Seg → Except CombineError (List Seg)
  | [] => .error .emptyCat
  | s :: ss =>
    if ss.all (fun t => t.channels = s.channels) then .ok (s :: ss)
    else .error .channelMismatch

/-- `TTSProcessor.combine_audiobook`: select rows with a non-null
`audio_path`, sort by `page_number`, raise when the selection is empty, then
run the load/resample/silence loop and concatenate. The result pairs the
warning log with either the ordered segment list of the written file or the
raised error. -/
def combine_audiobook (rs : Nat → Nat → Nat) (fs : String → Option Clip)
    (rows : List Row) (d : ℚ) :
    List String × Except CombineError (List Seg) :=
  let audio_rows := sortByPage (selectAudioRows rows)
  if audio_rows.length = 0 then ([], .error .noAudio)
  else
    let r := combineLoop rs fs d audio_rows.length audio_rows
    (r.2, catCheck r.1)

/-! ## Derived notions used by the theorems -/

/-- Key order for the assembly sort: ascending `page_number`. -/
def pageLe (a b : Nat × Row) : Prop := a.2.page_number ≤ b.2.page_number

/-- A selected row whose recorded audio file still exists on disk. -/
def survives (fs : String → Option Clip) (ir : Nat × Row) : Bool :=
  match ir.2.audio_path with
  | some ap => (fs ap).isSome
  | none => false

/-- A selected row whose recorded audio file no longer exists on disk. -/
def missingFile (fs : String → Option Clip) (ir : Nat × Row) : Bool :=
  match ir.2.audio_path with
  | some ap => (fs ap).isNone
  | none => false

/-- The `(page_number, file_path)` identities of the page clips in an output,
silence buffers dropped. -/
def clipKeys : List Seg → List (Int × String) :=
  List.filterMap fun s =>
    match s with
    | .clip pg src _ _ => some (pg, src)
    | .silence _ _ => none

/-- The warning line `combine_audiobook` prints for one missing file. -/
def missingWarning (ir : Nat × Row) : String :=
  "Warning: Audio file not found: " ++ (ir.2.audio_path.getD "")

/-- The outcome `text_to_speech_batch` leaves in one CSV row: unchanged when
the text is missing or blank or the collaborator fails, otherwise the
deterministic audio path is written. -/
def applyRow (gen : List Char → String → Bool) (output_dir : String)
    (row : Row) : Row :=
  match row.text with
  | none => row
  | some t =>
    if (stripChars t).isEmpty then row
    else if gen t (audioPathFor output_dir row.page_number) then
      { row with audio_path := some (audioPathFor output_dir row.page_number) }
    else row

/-- The `generate_audio` invocation one CSV row gives rise to, if any. -/
def callOf (output_dir : String) (ir : Nat × Row) :
    Option (Nat × List Char × String) :=
  match ir.2.text with
  | none => none
  | some t =>
    if (stripChars t).isEmpty then none
    else some (ir.1, t, audioPathFor output_dir ir.2.page_number)

/-! ## Helper lemmas -/

theorem mem_addPath_self (p : String) (s : List String) : p ∈ addPath p s := by
  unfold addPath
  split
  · assumption
  · exact List.mem_cons_self ..

theorem mem_addPath_of_mem {q : String} (p : String) (s : List String)
    (h : q ∈ s) : q ∈ addPath p s := by
  unfold addPath
  split
  · exact h
  · exact List.mem_cons_of_mem _ h

theorem wordsAux_ne_nil : ∀ (l cur : List Char), cur ≠ [] → wordsAux cur l ≠ []
  | [], cur, h => by
    simp only [wordsAux, List.isEmpty_eq_true, if_neg h]
    simp
  | c :: cs, cur, h => by
    by_cases hc : isSpace c
    · simp only [wordsAux, hc, if_pos, List.isEmpty_eq_true, if_neg h]
      simp
    · simpa only [wordsAux, hc, if_neg, Bool.false_eq_true] using
        wordsAux_ne_nil cs (c :: cur) (by simp)

theorem words_eq_nil_all_space : ∀ l : List Char, words l = [] → l.all isSpace
  | [], _ => rfl
  | c :: cs, h => by
    unfold words wordsAux at h
    by_cases hc : isSpace c
    · simp only [hc, if_pos, List.isEmpty_nil, if_pos] at h
      simp [hc, words_eq_nil_all_space cs h]
    · simp only [hc, Bool.false_eq_true, if_neg] at h
      exact absurd h (wordsAux_ne_nil cs [c] (by simp))

theorem all_space_stripChars (l : List Char) (h : l.all isSpace) :
    stripChars l = [] := by
  unfold stripChars
  have h1 : l.dropWhile isSpace = [] :=
    List.dropWhile_eq_nil_iff.mpr (fun x hx => by
      exact List.all_eq_true.mp h x hx)
  simp [h1]

theorem forall_mem_enumFrom_snd {α : Type} (p : α → Prop) :
    ∀ (l : List α) (n : Nat),
      (∀ ir ∈ List.enumFrom n l, p ir.2) ↔ ∀ r ∈ l, p r := by
  intro l
  induction l with
  | nil => simp [List.enumFrom]
  | cons x xs ih =>
    intro n
    simp only [List.enumFrom, List.mem_cons, forall_eq_or_imp]
    rw [ih (n + 1)]

theorem selectAudioRows_eq_nil_iff (rows : List Row) :
    selectAudioRows rows = [] ↔ ∀ r ∈ rows, r.audio_path = none := by
  unfold selectAudioRows
  rw [List.filter_eq_nil_iff]
  have h := forall_mem_enumFrom_snd (fun r : Row => r.audio_path = none) rows 0
  constructor
  · intro hall
    refine h.mp (fun ir hir => ?_)
    have := hall ir hir
    simpa [Option.not_isSome_iff_eq_none] using this
  · intro hall ir hir
    have := h.mpr hall ir hir
    simp [this]

theorem length_insertByPage (x : Nat × Row) :
    ∀ l, (insertByPage x l).length = l.length + 1 := by
  intro l
  induction l with
  | nil => rfl
  | cons y ys ih =>
    unfold insertByPage
    split
    · simp
    · simp [ih]

theorem length_sortByPage : ∀ l, (sortByPage l).length = l.length := by
  intro l
  induction l with
  | nil => rfl
  | cons x xs ih => simp [sortByPage, length_insertByPage, ih]

theorem mem_insertByPage {z x : Nat × Row} :
    ∀ {l}, z ∈ insertByPage x l → z = x ∨ z ∈ l := by
  intro l
  induction l with
  | nil => simp [insertByPage]
  | cons y ys ih =>
    unfold insertByPage
    split
    · intro h
      rcases List.mem_cons.mp h with h1 | h1
      · exact Or.inl h1
      · exact Or.inr h1
    · intro h
      rcases List.mem_cons.mp h with h1 | h1
      · exact Or.inr (List.mem_cons.mpr (Or.inl h1))
      · rcases ih h1 with h2 | h2
        · exact Or.inl h2
        · exact Or.inr (List.mem_cons.mpr (Or.inr h2))

theorem pairwise_insertByPage (x : Nat × Row) :
    ∀ {l}, l.Pairwise pageLe → (insertByPage x l).Pairwise pageLe := by
  intro l
  induction l with
  | nil =>
    intro _
    simp [insertByPage]
  | cons y ys ih =>
    intro h
    rcases List.pairwise_cons.mp h with ⟨hy, hys⟩
    unfold insertByPage
    split
    next h1 =>
      refine List.pairwise_cons.mpr ⟨?_, h⟩
      intro z hz
      rcases List.mem_cons.mp hz with hz1 | hz1
      · subst hz1
        exact h1
      · exact le_trans h1 (hy z hz1)
    next h1 =>
      refine List.pairwise_cons.mpr ⟨?_, ih hys⟩
      intro z hz
      rcases mem_insertByPage hz with hz1 | hz1
      · subst hz1
        exact le_of_not_le h1
      · exact hy z hz1

theorem pairwise_sortByPage : ∀ l, (sortByPage l).Pairwise pageLe := by
  intro l
  induction l with
  | nil => simp [sortByPage]
  | cons x xs ih => exact pairwise_insertByPage x ih

theorem batchGo_table (gen : List Char → String → Bool) (output_dir : String) :
    ∀ l : List (Nat × Row),
      (batchGo gen output_dir l).1 =
        l.map (fun ir => applyRow gen output_dir ir.2) := by
  intro l
  induction l with
  | nil => rfl
  | cons hd tl ih =>
    obtain ⟨idx, row⟩ := hd
    rw [List.map_cons]
    cases h : row.text with
    | none =>
      have ha : applyRow gen output_dir row = row := by
        simp [applyRow, h]
      rw [ha]
      simp only [batchGo, h]
      simp [ih]
    | some t =>
      by_cases hs : (stripChars t).isEmpty
      · have ha : applyRow gen output_dir row = row := by
          simp [applyRow, h, hs]
        rw [ha]
        simp only [batchGo, h]
        simp [hs, ih]
      · by_cases hg : gen t (audioPathFor output_dir row.page_number)
        · have ha : applyRow gen output_dir row =
              Row.mk row.page_number row.text row.word_count row.file_path
                (some (audioPathFor output_dir row.page_number)) := by
            simp [applyRow, h, hs, hg]
          rw [ha]
          simp only [batchGo, h]
          simp [hs, hg, ih]
        · have ha : applyRow gen output_dir row = row := by
            simp [applyRow, h, hs, hg]
          rw [ha]
          simp only [batchGo, h]
          simp [hs, hg, ih]

theorem batchGo_calls (gen : List Char → String → Bool) (output_dir : String) :
    ∀ l : List (Nat × Row),
      (batchGo gen output_dir l).2 = l.filterMap (callOf output_dir) := by
  intro l
  induction l with
  | nil => rfl
  | cons hd tl ih =>
    obtain ⟨idx, row⟩ := hd
    rw [List.filterMap_cons]
    cases h : row.text with
    | none =>
      have hc : callOf output_dir (idx, row) = none := by
        simp [callOf, h]
      rw [hc]
      simp only [batchGo, h]
      simp [ih]
    | some t =>
      by_cases hs : (stripChars t).isEmpty
      · have hc : callOf output_dir (idx, row) = none := by
          simp [callOf, h, hs]
        rw [hc]
        simp only [batchGo, h]
        simp [hs, ih]
      · have hc : callOf output_dir (idx, row) =
            some (idx, t, audioPathFor output_dir row.page_number) := by
          simp [callOf, h, hs]
        rw [hc]
        simp only [batchGo, h]
        by_cases hg : gen t (audioPathFor output_dir row.page_number)
        · simp [hs, hg, ih]
        · simp [hs, hg, ih]

theorem clipKeys_cons_clip (pg : Int) (src : String) (ch ns : Nat)
    (l : List Seg) :
    clipKeys (Seg.clip pg src ch ns :: l) = (pg, src) :: clipKeys l := by
  simp [clipKeys]

theorem clipKeys_cons_silence (ch ns : Nat) (l : List Seg) :
    clipKeys (Seg.silence ch ns :: l) = clipKeys l := by
  simp [clipKeys]

theorem combineLoop_clipKeys (rs : Nat → Nat → Nat) (fs : String → Option Clip)
    (d : ℚ) (total : Nat) :
    ∀ l : List (Nat × Row),
      clipKeys (combineLoop rs fs d total l).1 =
        (l.filter (survives fs)).map
          (fun ir => (ir.2.page_number, ir.2.file_path)) := by
  intro l
  induction l with
  | nil => rfl
  | cons hd tl ih =>
    obtain ⟨idx, row⟩ := hd
    rw [List.filter_cons]
    cases h : row.audio_path with
    | none =>
      have hs : survives fs (idx, row) = false := by
        simp [survives, h]
      simp only [combineLoop, h, hs]
      simp [ih]
    | some ap =>
      cases hf : fs ap with
      | none =>
        have hs : survives fs (idx, row) = false := by
          simp [survives, h, hf]
        simp only [combineLoop, h, hf, hs]
        simp [ih]
      | some c =>
        have hs : survives fs (idx, row) = true := by
          simp [survives, h, hf]
        simp only [combineLoop, h, hf, hs]
        by_cases hi : idx < total - 1
        · simp [hi, clipKeys_cons_clip, clipKeys_cons_silence, ih]
        · simp [hi, clipKeys_cons_clip, ih]

theorem combineLoop_log (rs : Nat → Nat → Nat) (fs : String → Option Clip)
    (d : ℚ) (total : Nat) :
    ∀ l : List (Nat × Row),
      (combineLoop rs fs d total l).2 =
        (l.filter (missingFile fs)).map missingWarning := by
  intro l
  induction l with
  | nil => rfl
  | cons hd tl ih =>
    obtain ⟨idx, row⟩ := hd
    rw [List.filter_cons]
    cases h : row.audio_path with
    | none =>
      have hm : missingFile fs (idx, row) = false := by
        simp [missingFile, h]
      simp only [combineLoop, h, hm]
      simp [ih]
    | some ap =>
      cases hf : fs ap with
      | none =>
        have hm : missingFile fs (idx, row) = true := by
          simp [missingFile, h, hf]
        have hw : missingWarning (idx, row) =
            "Warning: Audio file not found: " ++ ap := by
          simp [missingWarning, h]
        simp only [combineLoop, h, hf, hm]
        simp [hw, ih]
      | some c =>
        have hm : missingFile fs (idx, row) = false := by
          simp [missingFile, h, hf]
        simp only [combineLoop, h, hf, hm]
        by_cases hi : idx < total - 1
        · simp [hi, ih]
        · simp [hi, ih]

theorem combineLoop_channels (rs : Nat → Nat → Nat) (fs : String → Option Clip)
    (d : ℚ) (total : Nat) (c0 : Nat)
    (hmono : ∀ ap c, fs ap = some c → c.channels = c0) :
    ∀ l : List (Nat × Row), ∀ s ∈ (combineLoop rs fs d total l).1,
      s.channels = c0 := by
  intro l
  induction l with
  | nil => simp [combineLoop]
  | cons hd tl ih =>
    obtain ⟨idx, row⟩ := hd
    cases h : row.audio_path with
    | none =>
      simp only [combineLoop, h]
      exact ih
    | some ap =>
      cases hf : fs ap with
      | none =>
        simp only [combineLoop, h, hf]
        exact ih
      | some c =>
        have hc : c.channels = c0 := hmono ap c hf
        simp only [combineLoop, h, hf]
        by_cases hi : idx < total - 1
        · simp only [hi, if_pos]
          intro s hs
          rcases List.mem_cons.mp hs with rfl | hs1
          · exact hc
          · rcases List.mem_cons.mp hs1 with rfl | hs2
            · exact hc
            · exact ih s hs2
        · simp only [hi, if_neg, Bool.false_eq_true]
          intro s hs
          rcases List.mem_cons.mp hs with rfl | hs1
          · exact hc
          · exact ih s hs1

theorem catCheck_ne_noAudio : ∀ l : List Seg, catCheck l ≠ .error .noAudio := by
  intro l
  cases l with
  | nil => simp [catCheck]
  | cons s ss =>
    simp only [catCheck]
    split <;> simp

theorem catCheck_ok_eq : ∀ {l segs : List Seg}, catCheck l = .ok segs → segs = l := by
  intro l segs h
  cases l with
  | nil => simp [catCheck] at h
  | cons s ss =>
    simp only [catCheck] at h
    split at h
    · exact (Except.ok.injEq .. ▸ h).symm ▸ rfl
    · simp at h

theorem catCheck_ok_of_channels (l : List Seg) (hne : l ≠ []) (c0 : Nat)
    (h : ∀ s ∈ l, s.channels = c0) : catCheck l = .ok l := by
  cases l with
  | nil => exact absurd rfl hne
  | cons s ss =>
    have hs : s.channels = c0 := h s (List.mem_cons_self ..)
    have hall : ss.all (fun t => t.channels = s.channels) := by
      refine List.all_eq_true.mpr (fun t ht => ?_)
      have := h t (List.mem_cons_of_mem _ ht)
      simp [this, hs]
    simp [catCheck, hall]

/-! ## Claim theorems -/

/-- C9: for every ingested image, the stored `pageNumber` equals the value of
the first run of digits in the filename stem whenever such a run exists and is
positive, and otherwise the page number the extraction collaborator returned:
the update `text2json` performs coincides with the spec's resolution policy. -/
theorem text2json_page_number_resolution (image_path : String) (pd : PageData) :
    (text2json image_path pd).page_number =
      specResolvedPageNumber image_path pd.page_number := by
  unfold text2json specResolvedPageNumber filenamePageNumber
  cases h : firstDigitRun (pathStem image_path) with
  | none => simp
  | some ds =>
    by_cases hp : (digitsVal ds : Int) > 0
    · simp [hp]
    · simp [hp]

/-- C6: `combine_audiobook` fails with `NoAudioAvailable` (the
`ValueError("No audio files found in CSV")`) exactly when no record in the
store has an `audio_path` set; with at least one such record it proceeds to
the per-record loop and concatenation and never raises that error. -/
theorem combine_noAudio_iff (rs : Nat → Nat → Nat) (fs : String → Option Clip)
    (rows : List Row) (d : ℚ) :
    (combine_audiobook rs fs rows d).2 = .error .noAudio ↔
      ∀ r ∈ rows, r.audio_path = none := by
  simp only [combine_audiobook]
  split
  next hz =>
    have hsel : selectAudioRows rows = [] := by
      have hlen := length_sortByPage (selectAudioRows rows)
      rw [hz] at hlen
      exact List.length_eq_zero.mp hlen.symm
    exact iff_of_true rfl ((selectAudioRows_eq_nil_iff rows).mp hsel)
  next hz =>
    refine iff_of_false ?_ ?_
    · exact fun h => absurd h (catCheck_ne_noAudio _)
    · intro hall
      have hsel : selectAudioRows rows = [] :=
        (selectAudioRows_eq_nil_iff rows).mpr hall
      rw [hsel] at hz
      simp [sortByPage] at hz

/-- C2: evaluation of `combine_audiobook` at a failing input for the silence
law. The CSV holds row 0 = page 2 and row 1 = page 1, both with existing
24kHz mono audio, so S = 2 pages are selected. The claim (and the source's own
comment "Don't add silence after last page") requires exactly one silence gap,
between the two clips, and none trailing; the code instead compares each row's
DataFrame label with `len(audio_rows) - 1`, so the run emits no gap between
the clips and one 24000-sample silence after the final clip. -/
theorem combine_silence_after_last_page_on_reordered_csv :
    (combine_audiobook (fun _ s => s)
      (fun ap =>
        if ap = "a1.wav" then some ⟨1, 100, 24000⟩
        else if ap = "a2.wav" then some ⟨1, 200, 24000⟩ else none)
      [{ page_number := 2, text := some "t2".toList, word_count := 1,
         file_path := "b.jpg", audio_path := some "a2.wav" },
       { page_number := 1, text := some "t1".toList, word_count := 1,
         file_path := "a.jpg", audio_path := some "a1.wav" }] 1).2 =
      .ok [Seg.clip 1 "a.jpg" 1 100, Seg.clip 2 "b.jpg" 1 200,
           Seg.silence 1 24000] := by
  rfl

/-- C4 counterexample: two rows share `page_number = 1`; the CSV lists
`b.jpg` (audio `b.wav`) before `a.jpg` (audio `a.wav`). The claim's
`sourcePath` lexical tie-break would put `a.jpg`'s clip first, but
`sort_values("page_number")` never consults `file_path`, so the output keeps
`b.jpg`'s clip first even though `"a.jpg" < "b.jpg"`. -/
theorem combine_tiebreak_not_lexical :
    (combine_audiobook (fun _ s => s)
      (fun ap =>
        if ap = "a.wav" then some ⟨1, 100, 24000⟩
        else if ap = "b.wav" then some ⟨1, 200, 24000⟩ else none)
      [{ page_number := 1, text := some "tb".toList, word_count := 1,
         file_path := "b.jpg", audio_path := some "b.wav" },
       { page_number := 1, text := some "ta".toList, word_count := 1,
         file_path := "a.jpg", audio_path := some "a.wav" }] 1).2 =
      .ok [Seg.clip 1 "b.jpg" 1 200, Seg.silence 1 24000,
           Seg.clip 1 "a.jpg" 1 100] ∧
      "a.jpg".toList < "b.jpg".toList := by
  exact ⟨rfl, by decide⟩

/-- C4 amended: the assembler concatenates clips in ascending `page_number`
order — every successful `combine_audiobook` output lists its page clips with
nondecreasing page numbers, so page N's audio precedes page N+1's for all
consecutive present pages; ties keep the table's existing row order rather
than `sourcePath` lexical order. -/
theorem combine_output_pages_ascending (rs : Nat → Nat → Nat)
    (fs : String → Option Clip) (rows : List Row) (d : ℚ) (segs : List Seg)
    (h : (combine_audiobook rs fs rows d).2 = .ok segs) :
    (clipKeys segs).Pairwise (fun a b => a.1 ≤ b.1) := by
  simp only [combine_audiobook] at h
  split at h
  next hz => simp at h
  next hz =>
    have hseg := catCheck_ok_eq h
    subst hseg
    rw [combineLoop_clipKeys]
    refine (List.pairwise_map).mpr ?_
    exact (pairwise_sortByPage (selectAudioRows rows)).filter (survives fs)

/-- Witness for `combine_output_pages_ascending` at a concrete input: a CSV
with pages 2 and 1 out of order, both audio files present. -/
theorem combine_output_pages_ascending_witness :
    (clipKeys [Seg.clip 1 "a.jpg" 1 100, Seg.clip 2 "b.jpg" 1 200,
        Seg.silence 1 24000]).Pairwise (fun a b => a.1 ≤ b.1) :=
  combine_output_pages_ascending (fun _ s => s)
    (fun ap =>
      if ap = "a1.wav" then some ⟨1, 100, 24000⟩
      else if ap = "a2.wav" then some ⟨1, 200, 24000⟩ else none)
    [{ page_number := 2, text := some "t2".toList, word_count := 1,
       file_path := "b.jpg", audio_path := some "a2.wav" },
     { page_number := 1, text := some "t1".toList, word_count := 1,
       file_path := "a.jpg", audio_path := some "a1.wav" }] 1
    [Seg.clip 1 "a.jpg" 1 100, Seg.clip 2 "b.jpg" 1 200, Seg.silence 1 24000]
    rfl

/-- Number of table rows recorded for one source path. -/
def rowsFor (t : List Row) (p : String) : Nat :=
  (t.filter (fun r => r.file_path == p)).length

/-- C1 counterexample: running the batch scan (`process_existing_files`)
twice over the same directory containing `x.jpg` — exactly what two
`--process-existing` invocations or two scans in one session do — leaves two
rows for `x.jpg` in the table: `process_page` appends unconditionally and only
`on_created` consults the `processed_files` set, so the second observation is
not a no-op and the table does not keep exactly one row. -/
theorem batch_rescan_duplicates_row :
    rowsFor
      ((process_existing_files
          (fun p => if p = "x.jpg" then
              some { page_number := 1, text := "hello".toList, word_count := 1 }
            else none)
          ["x.jpg"]
          (process_existing_files
            (fun p => if p = "x.jpg" then
                some { page_number := 1, text := "hello".toList, word_count := 1 }
              else none)
            ["x.jpg"] { processed := [], table := [] })).table)
      "x.jpg" = 2 := by
  rfl

/-- C1 amended: ingestion deduplicates only watcher events within one session:
a second `on_created` event for a path already in the in-memory
`processed_files` set is a no-op, but `process_page` itself (the routine the
batch scan calls directly, and the only row writer) appends a fresh row
whenever extraction succeeds, so a second batch scan — or any reprocessing
after a restart, which clears the set — adds a duplicate row for the path
instead of leaving exactly one. -/
theorem ingestion_dedup_watcher_events_only :
    (∀ (ext : String → Option PageData) (s : WatchState) (e : FileEvent),
        e.is_directory = false → e.src_path ∈ s.processed →
          on_created ext s e = s) ∧
    (∀ (ext : String → Option PageData) (s : WatchState) (p : String)
        (pd : PageData), ext p = some pd →
          rowsFor (process_page ext s p).table p = rowsFor s.table p + 1) := by
  constructor
  · intro ext s e hdir hmem
    unfold on_created
    rw [if_neg (by simp [hdir]), if_neg (fun hc => hc.2 hmem)]
  · intro ext s p pd hext
    unfold process_page rowsFor
    rw [hext]
    simp [List.filter_append, mkRow]

/-- Witness for `ingestion_dedup_watcher_events_only` at concrete inputs. -/
theorem ingestion_dedup_watcher_events_only_witness :
    (({ is_directory := false, src_path := "x.jpg" } : FileEvent).is_directory
        = false ∧
      "x.jpg" ∈ ({ processed := ["x.jpg"], table := [] } : WatchState).processed ∧
      on_created (fun _ => none) { processed := ["x.jpg"], table := [] }
          { is_directory := false, src_path := "x.jpg" } =
        { processed := ["x.jpg"], table := [] }) ∧
    ((fun p => if p = "x.jpg" then
        some ({ page_number := 1, text := "hello".toList, word_count := 1 }
          : PageData)
      else none) "x.jpg" =
        some { page_number := 1, text := "hello".toList, word_count := 1 } ∧
      rowsFor
        (process_page
          (fun p => if p = "x.jpg" then
              some { page_number := 1, text := "hello".toList, word_count := 1 }
            else none)
          { processed := [], table := [] } "x.jpg").table "x.jpg" =
        rowsFor ({ processed := [], table := [] } : WatchState).table "x.jpg"
          + 1) :=
  ⟨⟨rfl, by simp,
    ingestion_dedup_watcher_events_only.1 _ _ _ rfl (by simp)⟩,
   ⟨rfl, ingestion_dedup_watcher_events_only.2 _ _ _ _ rfl⟩⟩

theorem on_created_preserves_failed (ext : String → Option PageData)
    (p : String) (s : WatchState) (e : FileEvent)
    (hp : p ∈ s.processed) (ht : ∀ r ∈ s.table, r.file_path ≠ p) :
    p ∈ (on_created ext s e).processed ∧
      ∀ r ∈ (on_created ext s e).table, r.file_path ≠ p := by
  unfold on_created
  by_cases hdir : e.is_directory = true
  · rw [if_pos hdir]
    exact ⟨hp, ht⟩
  · rw [if_neg hdir]
    by_cases hcond : lowerChars (pathSuffix e.src_path) ∈ imageExtensions ∧
        e.src_path ∉ s.processed
    · rw [if_pos hcond]
      have hne : e.src_path ≠ p := fun he => hcond.2 (he ▸ hp)
      unfold process_page
      cases hext : ext e.src_path with
      | none => exact ⟨mem_addPath_of_mem _ _ hp, ht⟩
      | some pd =>
        refine ⟨mem_addPath_of_mem _ _ hp, ?_⟩
        intro r hr
        rcases List.mem_append.mp hr with h1 | h1
        · exact ht r h1
        · have : r = mkRow pd e.src_path := by simpa using h1
          subst this
          simpa [mkRow] using hne
    · rw [if_neg hcond]
      exact ⟨hp, ht⟩

theorem foldl_on_created_no_row (ext : String → Option PageData) (p : String) :
    ∀ (evs : List FileEvent) (s : WatchState),
      p ∈ s.processed → (∀ r ∈ s.table, r.file_path ≠ p) →
        p ∈ (evs.foldl (on_created ext) s).processed ∧
          ∀ r ∈ (evs.foldl (on_created ext) s).table, r.file_path ≠ p := by
  intro evs
  induction evs with
  | nil =>
    intro s hp ht
    exact ⟨hp, ht⟩
  | cons e es ih =>
    intro s hp ht
    have h1 := on_created_preserves_failed ext p s e hp ht
    exact ih _ h1.1 h1.2

/-- C10: `process_page` adds the source path to `processed_files` before
extraction is attempted, so when extraction fails (no row is written) the path
still enters the set; afterwards, across any sequence of further
file-creation events in the same session, the table never gains a row for the
path and a new creation event for it is silently ignored (a no-op): the file
is never retried. -/
theorem failed_extraction_never_retried (ext : String → Option PageData)
    (s : WatchState) (p : String) (evs : List FileEvent)
    (hfail : ext p = none)
    (hclean : ∀ r ∈ s.table, r.file_path ≠ p) :
    p ∈ (evs.foldl (on_created ext) (process_page ext s p)).processed ∧
    (∀ r ∈ (evs.foldl (on_created ext) (process_page ext s p)).table,
        r.file_path ≠ p) ∧
    on_created ext (evs.foldl (on_created ext) (process_page ext s p))
        { is_directory := false, src_path := p } =
      evs.foldl (on_created ext) (process_page ext s p) := by
  have hp0 : p ∈ (process_page ext s p).processed := by
    unfold process_page
    rw [hfail]
    exact mem_addPath_self p s.processed
  have ht0 : ∀ r ∈ (process_page ext s p).table, r.file_path ≠ p := by
    unfold process_page
    rw [hfail]
    exact hclean
  obtain ⟨h1, h2⟩ := foldl_on_created_no_row ext p evs _ hp0 ht0
  refine ⟨h1, h2, ?_⟩
  unfold on_created
  rw [if_neg (by simp), if_neg (fun hc => hc.2 h1)]

/-- Witness for `failed_extraction_never_retried`: an always-failing extractor,
an empty initial state, and one later creation event for the same path. -/
theorem failed_extraction_never_retried_witness :
    ((fun _ : String => (none : Option PageData)) "page_1.jpg" = none ∧
      ∀ r ∈ ({ processed := [], table := [] } : WatchState).table,
        r.file_path ≠ "page_1.jpg") ∧
    ("page_1.jpg" ∈
        ([({ is_directory := false, src_path := "page_1.jpg" } : FileEvent)].foldl
          (on_created (fun _ => none))
          (process_page (fun _ => none) { processed := [], table := [] }
            "page_1.jpg")).processed ∧
      (∀ r ∈ ([({ is_directory := false, src_path := "page_1.jpg" } : FileEvent)].foldl
          (on_created (fun _ => none))
          (process_page (fun _ => none) { processed := [], table := [] }
            "page_1.jpg")).table, r.file_path ≠ "page_1.jpg") ∧
      on_created (fun _ => none)
          ([({ is_directory := false, src_path := "page_1.jpg" } : FileEvent)].foldl
            (on_created (fun _ => none))
            (process_page (fun _ => none) { processed := [], table := [] }
              "page_1.jpg"))
          { is_directory := false, src_path := "page_1.jpg" } =
        [({ is_directory := false, src_path := "page_1.jpg" } : FileEvent)].foldl
          (on_created (fun _ => none))
          (process_page (fun _ => none) { processed := [], table := [] }
            "page_1.jpg")) :=
  ⟨⟨rfl, by simp⟩,
   failed_extraction_never_retried (fun _ => none)
     { processed := [], table := [] } "page_1.jpg"
     [{ is_directory := false, src_path := "page_1.jpg" }] rfl (by simp)⟩

theorem batch_table_eq (gen : List Char → String → Bool) (output_dir : String)
    (rows : List Row) :
    (text_to_speech_batch gen output_dir rows).table =
      rows.map (applyRow gen output_dir) := by
  show (batchGo gen output_dir rows.enum).1 = _
  rw [batchGo_table]
  have : rows.enum.map (fun ir => applyRow gen output_dir ir.2) =
      (rows.enum.map Prod.snd).map (applyRow gen output_dir) := by
    rw [List.map_map]
    rfl
  rw [this, List.enum_map_snd]

theorem batch_calls_eq (gen : List Char → String → Bool) (output_dir : String)
    (rows : List Row) :
    (text_to_speech_batch gen output_dir rows).calls =
      rows.enum.filterMap (callOf output_dir) := by
  show (batchGo gen output_dir rows.enum).2 = _
  rw [batchGo_calls]

theorem applyRow_eq_self_of_not_hasText (gen : List Char → String → Bool)
    (output_dir : String) (r : Row) (h : hasText r = false) :
    applyRow gen output_dir r = r := by
  unfold hasText at h
  cases ht : r.text with
  | none => simp [applyRow, ht]
  | some t =>
    rw [ht] at h
    have he : stripChars t = [] := by simpa using h
    simp [applyRow, ht, he]

theorem callOf_eq_none_of_not_hasText (output_dir : String) (ir : Nat × Row)
    (h : hasText ir.2 = false) : callOf output_dir ir = none := by
  unfold hasText at h
  cases ht : ir.2.text with
  | none => simp [callOf, ht]
  | some t =>
    rw [ht] at h
    have he : stripChars t = [] := by simpa using h
    simp [callOf, ht, he]

theorem hasText_false_of_empty (r : Row)
    (hwc : r.word_count = (countWords r.text : Int))
    (hempty : r.word_count = 0 ∨ r.text = none ∨ r.text = some []) :
    hasText r = false := by
  unfold hasText
  cases ht : r.text with
  | none => rfl
  | some t =>
    rcases hempty with hz | hn | he
    · rw [ht] at hwc
      rw [hz] at hwc
      have hcw : countWords (some t) = 0 := by
        omega
      have hw : words t = [] := List.length_eq_zero.mp hcw
      have hall : t.all isSpace := words_eq_nil_all_space t hw
      simp [all_space_stripChars t hall]
    · rw [ht] at hn
      exact absurd hn (by simp)
    · rw [ht] at he
      have : t = [] := by simpa using he
      subst this
      simp [stripChars]

theorem length_filterMap_callOf (output_dir : String) :
    ∀ l : List (Nat × Row),
      (l.filterMap (callOf output_dir)).length =
        (l.filter (fun ir => hasText ir.2)).length := by
  intro l
  induction l with
  | nil => rfl
  | cons hd tl ih =>
    rw [List.filterMap_cons, List.filter_cons]
    cases hh : hasText hd.2 with
    | false =>
      rw [callOf_eq_none_of_not_hasText output_dir hd hh]
      simp [hh, ih]
    | true =>
      have : ∃ c, callOf output_dir hd = some c := by
        unfold hasText at hh
        unfold callOf
        cases ht : hd.2.text with
        | none =>
          rw [ht] at hh
          simp at hh
        | some t =>
          rw [ht] at hh
          simp only [Bool.not_eq_true'] at hh ⊢
          simp [hh]
      obtain ⟨c, hc⟩ := this
      rw [hc]
      simp [hh, ih]

theorem enumFrom_filter_snd_length {α : Type} (q : α → Bool) :
    ∀ (l : List α) (n : Nat),
      ((List.enumFrom n l).filter (fun p => q p.2)).length =
        (l.filter q).length := by
  intro l
  induction l with
  | nil => intro n; rfl
  | cons x xs ih =>
    intro n
    rw [List.enumFrom, List.filter_cons, List.filter_cons]
    cases hq : q x with
    | false => simpa [hq] using ih (n + 1)
    | true => simpa [hq] using ih (n + 1)

theorem callOf_some_fst (output_dir : String) (ir : Nat × Row)
    (c : Nat × List Char × String) (h : callOf output_dir ir = some c) :
    c.1 = ir.1 ∧ hasText ir.2 = true := by
  unfold callOf at h
  cases ht : ir.2.text with
  | none =>
    rw [ht] at h
    simp at h
  | some t =>
    rw [ht] at h
    by_cases hs : (stripChars t).isEmpty
    · simp [hs] at h
    · simp [hs] at h
      subst h
      refine ⟨rfl, ?_⟩
      unfold hasText
      rw [ht]
      simp [hs]

/-- C3 counterexample: a store whose single record already has
`audio_path = "old.wav"` (its synthesis already succeeded) and non-empty text;
re-running the driver submits that record's text to the synthesis collaborator
again — with no overwrite requested — because the loop never consults
`audio_path`, and on success it overwrites the recorded path. -/
theorem batch_regenerates_existing_audio :
    (({ page_number := 1, text := some "hi".toList, word_count := 1,
        file_path := "x.jpg", audio_path := some "old.wav" } : Row).audio_path
      = some "old.wav") ∧
    (text_to_speech_batch (fun _ _ => true) "out"
      [{ page_number := 1, text := some "hi".toList, word_count := 1,
         file_path := "x.jpg", audio_path := some "old.wav" }]).calls =
      [(0, "hi".toList, "out/page_001.wav")] ∧
    (text_to_speech_batch (fun _ _ => true) "out"
      [{ page_number := 1, text := some "hi".toList, word_count := 1,
         file_path := "x.jpg", audio_path := some "old.wav" }]).table =
      [{ page_number := 1, text := some "hi".toList, word_count := 1,
         file_path := "x.jpg", audio_path := some "out/page_001.wav" }] :=
  ⟨rfl, rfl, rfl⟩

/-- C3 amended: re-running the synthesis driver invokes the collaborator for
every record with non-blank text — the loop applies no missing-`audioPath`
filter and supports no overwrite flag, so records whose synthesis already
succeeded are regenerated too (`r.audio_path` is unconstrained here). -/
theorem batch_submits_every_text_row (gen : List Char → String → Bool)
    (output_dir : String) (rows : List Row) (i : Nat) (r : Row) (t : List Char)
    (hi : rows[i]? = some r) (htext : r.text = some t)
    (hne : stripChars t ≠ []) :
    (i, t, audioPathFor output_dir r.page_number) ∈
      (text_to_speech_batch gen output_dir rows).calls := by
  rw [batch_calls_eq]
  refine List.mem_filterMap.mpr ⟨(i, r), ?_, ?_⟩
  · exact List.mem_enum_iff_getElem?.mpr (by simpa using hi)
  · simp [callOf, htext, hne]

/-- Witness for `batch_submits_every_text_row`: the record already has
`audio_path` set, and is still submitted. -/
theorem batch_submits_every_text_row_witness :
    (([{ page_number := 1, text := some "hi".toList, word_count := 1,
          file_path := "x.jpg", audio_path := some "old.wav" }] :
        List Row)[0]? =
      some { page_number := 1, text := some "hi".toList, word_count := 1,
             file_path := "x.jpg", audio_path := some "old.wav" } ∧
      stripChars "hi".toList ≠ [] ∧
      audioPathFor "out" 1 = "out/page_001.wav") ∧
    (0, "hi".toList, audioPathFor "out" 1) ∈
      (text_to_speech_batch (fun _ _ => true) "out"
        [{ page_number := 1, text := some "hi".toList, word_count := 1,
           file_path := "x.jpg", audio_path := some "old.wav" }]).calls :=
  ⟨⟨rfl, by decide, rfl⟩,
   batch_submits_every_text_row (fun _ _ => true) "out"
     [{ page_number := 1, text := some "hi".toList, word_count := 1,
        file_path := "x.jpg", audio_path := some "old.wav" }] 0
     { page_number := 1, text := some "hi".toList, word_count := 1,
       file_path := "x.jpg", audio_path := some "old.wav" }
     "hi".toList rfl rfl (by decide)⟩

/-- C5 counterexample: a batch over two records where the collaborator fails
on the second (`"bad"`) completes with one success and one failure — 2
attempted, 1 succeeded, 1 failed — yet the run hands back no summary at all:
`text_to_speech_batch` is annotated `-> None`, so its returned summary
component is `none` where the claim requires the three counts. -/
theorem batch_run_returns_no_summary :
    (text_to_speech_batch (fun t _ => !(t == "bad".toList)) "out"
      [{ page_number := 1, text := some "ok".toList, word_count := 1,
         file_path := "a.jpg", audio_path := none },
       { page_number := 2, text := some "bad".toList, word_count := 1,
         file_path := "b.jpg", audio_path := none }]).calls.length = 2 ∧
    (text_to_speech_batch (fun t _ => !(t == "bad".toList)) "out"
      [{ page_number := 1, text := some "ok".toList, word_count := 1,
         file_path := "a.jpg", audio_path := none },
       { page_number := 2, text := some "bad".toList, word_count := 1,
         file_path := "b.jpg", audio_path := none }]).table =
      [{ page_number := 1, text := some "ok".toList, word_count := 1,
         file_path := "a.jpg", audio_path := some "out/page_001.wav" },
       { page_number := 2, text := some "bad".toList, word_count := 1,
         file_path := "b.jpg", audio_path := none }] ∧
    (text_to_speech_batch (fun t _ => !(t == "bad".toList)) "out"
      [{ page_number := 1, text := some "ok".toList, word_count := 1,
         file_path := "a.jpg", audio_path := none },
       { page_number := 2, text := some "bad".toList, word_count := 1,
         file_path := "b.jpg", audio_path := none }]).summary = none :=
  ⟨rfl, rfl, rfl⟩

/-- C5 amended: the batch driver never aborts for a single record's failure —
for every synthesis outcome function the run transforms each row
independently (the table is a per-row map of the input) and submits every
non-blank-text record; but it returns no attempted/succeeded/failed summary:
the Python function returns `None` and only prints per-record marks. -/
theorem batch_never_aborts (gen : List Char → String → Bool)
    (output_dir : String) (rows : List Row) :
    (text_to_speech_batch gen output_dir rows).table =
      rows.map (applyRow gen output_dir) ∧
    (text_to_speech_batch gen output_dir rows).calls.length =
      (rows.filter hasText).length ∧
    (text_to_speech_batch gen output_dir rows).summary = none := by
  refine ⟨batch_table_eq gen output_dir rows, ?_, rfl⟩
  rw [batch_calls_eq, length_filterMap_callOf]
  exact enumFrom_filter_snd_length hasText rows 0

/-- C8: a record with `wordCount = 0` or empty text — `wordCount` being the
data model's whitespace-token count of the text — is retained unchanged in
the table but never submitted to the synthesis collaborator: no
`generate_audio` call carries its row index. -/
theorem empty_page_never_synthesized (gen : List Char → String → Bool)
    (output_dir : String) (rows : List Row) (i : Nat) (r : Row)
    (hi : rows[i]? = some r)
    (hwc : r.word_count = (countWords r.text : Int))
    (hempty : r.word_count = 0 ∨ r.text = none ∨ r.text = some []) :
    (text_to_speech_batch gen output_dir rows).table[i]? = some r ∧
    ∀ c ∈ (text_to_speech_batch gen output_dir rows).calls, c.1 ≠ i := by
  have hft : hasText r = false := hasText_false_of_empty r hwc hempty
  constructor
  · rw [batch_table_eq, List.getElem?_map, hi]
    simp [applyRow_eq_self_of_not_hasText gen output_dir r hft]
  · intro c hc hci
    rw [batch_calls_eq] at hc
    obtain ⟨ir, hmem, hcall⟩ := List.mem_filterMap.mp hc
    obtain ⟨hfst, htxt⟩ := callOf_some_fst output_dir ir c hcall
    have hgot : rows[ir.1]? = some ir.2 :=
      List.mem_enum_iff_getElem?.mp hmem
    rw [← hfst, hci, hi] at hgot
    have hir2 : ir.2 = r := (Option.some.inj hgot).symm
    rw [hir2] at htxt
    rw [htxt] at hft
    exact absurd hft (by simp)

/-- Witness for `empty_page_never_synthesized`: a whitespace-only page with
`word_count = 0`. -/
theorem empty_page_never_synthesized_witness :
    (([{ page_number := 3, text := some " ".toList, word_count := 0,
          file_path := "p3.jpg", audio_path := none }] : List Row)[0]? =
      some { page_number := 3, text := some " ".toList, word_count := 0,
             file_path := "p3.jpg", audio_path := none } ∧
      ({ page_number := 3, text := some " ".toList, word_count := 0,
         file_path := "p3.jpg", audio_path := none } : Row).word_count = 0) ∧
    ((text_to_speech_batch (fun _ _ => true) "out"
        [{ page_number := 3, text := some " ".toList, word_count := 0,
           file_path := "p3.jpg", audio_path := none }]).table[0]? =
      some { page_number := 3, text := some " ".toList, word_count := 0,
             file_path := "p3.jpg", audio_path := none } ∧
      ∀ c ∈ (text_to_speech_batch (fun _ _ => true) "out"
          [{ page_number := 3, text := some " ".toList, word_count := 0,
             file_path := "p3.jpg", audio_path := none }]).calls, c.1 ≠ 0) :=
  ⟨⟨rfl, rfl⟩,
   empty_page_never_synthesized (fun _ _ => true) "out"
     [{ page_number := 3, text := some " ".toList, word_count := 0,
        file_path := "p3.jpg", audio_path := none }] 0
     { page_number := 3, text := some " ".toList, word_count := 0,
       file_path := "p3.jpg", audio_path := none }
     rfl (by decide) (Or.inl rfl)⟩

/-- C7 amended: at assembly time every selected record whose recorded audio
file no longer exists is logged and skipped, and the run produces an output
whose clips are exactly the surviving selected records in sorted order —
provided at least one selected file still exists (when every selected file is
missing, the `waveforms` list stays empty and `torch.cat` raises, failing the
run) and the surviving clips share one channel count (which the concatenation
requires). -/
theorem combine_skips_missing_files (rs : Nat → Nat → Nat)
    (fs : String → Option Clip) (rows : List Row) (d : ℚ) (c0 : Nat)
    (hch : ∀ ap c, fs ap = some c → c.channels = c0)
    (hex : ∃ ir ∈ sortByPage (selectAudioRows rows), survives fs ir = true) :
    ∃ segs, (combine_audiobook rs fs rows d).2 = .ok segs ∧
      clipKeys segs =
        ((sortByPage (selectAudioRows rows)).filter (survives fs)).map
          (fun ir => (ir.2.page_number, ir.2.file_path)) ∧
      ∀ ir ∈ sortByPage (selectAudioRows rows), missingFile fs ir = true →
        missingWarning ir ∈ (combine_audiobook rs fs rows d).1 := by
  obtain ⟨ir0, hir0, hs0⟩ := hex
  have hlen : ¬(sortByPage (selectAudioRows rows)).length = 0 := by
    intro h0
    rw [List.length_eq_zero] at h0
    rw [h0] at hir0
    simp at hir0
  have hchan := combineLoop_channels rs fs d
    (sortByPage (selectAudioRows rows)).length c0 hch
    (sortByPage (selectAudioRows rows))
  have hkeys := combineLoop_clipKeys rs fs d
    (sortByPage (selectAudioRows rows)).length
    (sortByPage (selectAudioRows rows))
  have hlog := combineLoop_log rs fs d
    (sortByPage (selectAudioRows rows)).length
    (sortByPage (selectAudioRows rows))
  have hne : (combineLoop rs fs d (sortByPage (selectAudioRows rows)).length
      (sortByPage (selectAudioRows rows))).1 ≠ [] := by
    intro h0
    rw [h0] at hkeys
    have hmem : ir0 ∈ (sortByPage (selectAudioRows rows)).filter (survives fs) :=
      List.mem_filter.mpr ⟨hir0, hs0⟩
    have hmem2 := List.mem_map_of_mem
      (fun ir : Nat × Row => (ir.2.page_number, ir.2.file_path)) hmem
    rw [← hkeys] at hmem2
    simp [clipKeys] at hmem2
  refine ⟨(combineLoop rs fs d (sortByPage (selectAudioRows rows)).length
      (sortByPage (selectAudioRows rows))).1, ?_, ?_, ?_⟩
  · simp only [combine_audiobook]
    rw [if_neg hlen]
    exact catCheck_ok_of_channels _ hne c0 hchan
  · exact hkeys
  · intro ir hirA hmiss
    simp only [combine_audiobook]
    rw [if_neg hlen]
    show missingWarning ir ∈ (combineLoop rs fs d
      (sortByPage (selectAudioRows rows)).length
      (sortByPage (selectAudioRows rows))).2
    rw [hlog]
    exact List.mem_map_of_mem _ (List.mem_filter.mpr ⟨hirA, hmiss⟩)

/-- Witness for `combine_skips_missing_files`: pages 1 and 2 both recorded
with audio, but page 2's file has been deleted; the run succeeds with page 1's
clip only and logs the omission of page 2's file. -/
theorem combine_skips_missing_files_witness :
    (∃ ir ∈ sortByPage (selectAudioRows
        [{ page_number := 1, text := some "t1".toList, word_count := 1,
           file_path := "a.jpg", audio_path := some "a.wav" },
         { page_number := 2, text := some "t2".toList, word_count := 1,
           file_path := "b.jpg", audio_path := some "b.wav" }]),
      survives (fun ap => if ap = "a.wav" then
          some ⟨1, 100, 24000⟩ else none) ir = true) ∧
    ∃ segs,
      (combine_audiobook (fun _ s => s)
        (fun ap => if ap = "a.wav" then some ⟨1, 100, 24000⟩ else none)
        [{ page_number := 1, text := some "t1".toList, word_count := 1,
           file_path := "a.jpg", audio_path := some "a.wav" },
         { page_number := 2, text := some "t2".toList, word_count := 1,
           file_path := "b.jpg", audio_path := some "b.wav" }] 1).2 =
        .ok segs ∧
      clipKeys segs =
        ((sortByPage (selectAudioRows
            [{ page_number := 1, text := some "t1".toList, word_count := 1,
               file_path := "a.jpg", audio_path := some "a.wav" },
             { page_number := 2, text := some "t2".toList, word_count := 1,
               file_path := "b.jpg", audio_path := some "b.wav" }])).filter
          (survives (fun ap => if ap = "a.wav" then
              some ⟨1, 100, 24000⟩ else none))).map
          (fun ir => (ir.2.page_number, ir.2.file_path)) ∧
      ∀ ir ∈ sortByPage (selectAudioRows
          [{ page_number := 1, text := some "t1".toList, word_count := 1,
             file_path := "a.jpg", audio_path := some "a.wav" },
           { page_number := 2, text := some "t2".toList, word_count := 1,
             file_path := "b.jpg", audio_path := some "b.wav" }]),
        missingFile (fun ap => if ap = "a.wav" then
            some ⟨1, 100, 24000⟩ else none) ir = true →
          missingWarning ir ∈
            (combine_audiobook (fun _ s => s)
              (fun ap => if ap = "a.wav" then some ⟨1, 100, 24000⟩ else none)
              [{ page_number := 1, text := some "t1".toList, word_count := 1,
                 file_path := "a.jpg", audio_path := some "a.wav" },
               { page_number := 2, text := some "t2".toList, word_count := 1,
                 file_path := "b.jpg", audio_path := some "b.wav" }] 1).1 :=
  have hexw : ∃ ir ∈ sortByPage (selectAudioRows
      [{ page_number := 1, text := some "t1".toList, word_count := 1,
         file_path := "a.jpg", audio_path := some "a.wav" },
       { page_number := 2, text := some "t2".toList, word_count := 1,
         file_path := "b.jpg", audio_path := some "b.wav" }]),
      survives (fun ap => if ap = "a.wav" then
          some ⟨1, 100, 24000⟩ else none) ir = true :=
    ⟨(0, { page_number := 1, text := some "t1".toList, word_count := 1,
           file_path := "a.jpg", audio_path := some "a.wav" }),
      by decide, rfl⟩
  ⟨hexw,
   combine_skips_missing_files (fun _ s => s)
     (fun ap => if ap = "a.wav" then some ⟨1, 100, 24000⟩ else none)
     [{ page_number := 1, text := some "t1".toList, word_count := 1,
        file_path := "a.jpg", audio_path := some "a.wav" },
      { page_number := 2, text := some "t2".toList, word_count := 1,
        file_path := "b.jpg", audio_path := some "b.wav" }] 1 1
     (by
       intro ap c h
       dsimp only at h
       by_cases ha : ap = "a.wav"
       · rw [if_pos ha] at h
         cases h
         rfl
       · rw [if_neg ha] at h
         exact Option.noConfusion h)
     hexw⟩

/-- C7 counterexample: the store's single selected record points at a deleted
audio file; the loop skips it, the `waveforms` list stays empty, and the run
fails on `torch.cat([])` instead of producing an output from the remaining
records — so the skip does not always save the run. -/
theorem combine_fails_when_all_files_missing :
    (combine_audiobook (fun _ s => s) (fun _ => none)
      [{ page_number := 1, text := some "t1".toList, word_count := 1,
         file_path := "a.jpg", audio_path := some "a.wav" }] 1).2 =
      .error .emptyCat := by
  rfl
